import Mathlib

/-!
# PKCS12 bundle objects (`src/crypto/pkcs12.c`)

A shallow embedding of the PKCS12 wrapper object of the crypto module and the
properties of its constructor, accessors, setters and `export`.

Modelling decisions.

* Python objects live in a heap and are named by pointers (`PyPtr`); the three
  fields of a `crypto_PKCS12Obj` are pointers, as in the C struct, so sharing
  between the caller and the object is visible.
* Reference counts are not modelled: `Py_INCREF`/`Py_DECREF` have no effect on
  the values the functions compute, and objects are never freed.
* Every method receives the outcome of its `PyArg_ParseTuple...` call rather
  than the raw argument tuple.
* The OpenSSL routines `PKCS12_parse`, `PKCS12_create`, `i2d_PKCS12_bio` are
  parameters (`Backend`); every invocation is recorded in a call trace.
* Python object allocation may fail (the heap has a budget `avail`); the native
  allocations `sk_X509_new_null` and `BIO_new` always succeed.
-/

namespace PKCS12

/-! ## Pointers, types and objects -/

/-- Native OpenSSL handle (`X509 *`, `EVP_PKEY *`); `0` is the null handle. -/
abbrev Handle := Nat

/-- The null native handle. -/
def NULL : Handle := 0

/-- A `PyObject *`: the null pointer, the address of the `None` singleton, or
the address of a heap object. -/
inductive PyPtr where
  | NULL
  | Py_None
  | obj (addr : Nat)
  deriving DecidableEq, Repr

/-- Type objects. `UserType id base` is a class derived from `base`. -/
inductive PyType where
  | NoneType
  | crypto_X509_Type
  | crypto_PKey_Type
  | TupleType
  | ListType
  | GeneratorType
  | crypto_PKCS12_Type
  | UserType (id : Nat) (base : PyType)
  | OtherType (id : Nat)
  deriving DecidableEq, Repr

/-- Subtype test of CPython (`PyType_IsSubtype`): walk the base chain. -/
def PyType_IsSubtype : PyType → PyType → Bool
  | .UserType id base, b => (PyType.UserType id base == b) || PyType_IsSubtype base b
  | a, b => a == b

/-- Heap objects. `X509Obj` and `PKeyObj` are the wrapper structs
`crypto_X509Obj` / `crypto_PKeyObj` (also the layout of instances of classes
derived from them, `subclass = some id`); `tuple` and `list` implement the
sequence protocol; `generator` is an iterable that does not; `PKCS12Obj` is
the storage of a PKCS12 object, whose fields are kept in `crypto_PKCS12Obj`;
`other` is any other object. -/
inductive PyObject where
  | None
  | X509Obj (subclass : Option Nat) (x509 : Handle)
  | PKeyObj (subclass : Option Nat) (pkey : Handle)
  | tuple (ob_item : List PyPtr)
  | list (ob_item : List PyPtr)
  | generator (yields : List PyPtr)
  | PKCS12Obj
  | other (id : Nat)
  deriving DecidableEq, Repr

/-- The dynamic type of an object (`ob_type`). -/
def Py_TYPE : PyObject → PyType
  | .None => .NoneType
  | .X509Obj none _ => .crypto_X509_Type
  | .X509Obj (some id) _ => .UserType id .crypto_X509_Type
  | .PKeyObj none _ => .crypto_PKey_Type
  | .PKeyObj (some id) _ => .UserType id .crypto_PKey_Type
  | .tuple _ => .TupleType
  | .list _ => .ListType
  | .generator _ => .GeneratorType
  | .PKCS12Obj => .crypto_PKCS12_Type
  | .other id => .OtherType id

/-- The Python heap: contents by address, the next fresh address and the
number of object allocations that will still succeed. -/
structure Heap where
  objs : Nat → Option PyObject
  next : Nat
  avail : Nat

/-- Object a pointer refers to, if any. -/
def deref (h : Heap) : PyPtr → Option PyObject
  | .NULL => none
  | .Py_None => some .None
  | .obj a => h.objs a

/-- Allocate a new object; returns `NULL` when memory is exhausted. -/
def alloc (h : Heap) (o : PyObject) : Heap × PyPtr :=
  if h.avail = 0 then (h, .NULL)
  else (⟨Function.update h.objs h.next (some o), h.next + 1, h.avail - 1⟩, .obj h.next)

/-! ## The parts of the CPython API the file uses -/

/-- `PyObject_IsInstance(inst, cls)` for a type object `cls`: true when the
type of `inst` is `cls` or derives from it. The error result `-1` and the
lookup of a `__class__` attribute are outside the model. -/
def PyObject_IsInstance (h : Heap) (inst : PyPtr) (cls : PyType) : Bool :=
  match deref h inst with
  | some o => PyType_IsSubtype (Py_TYPE o) cls
  | none => false

/-- `PyObject_Type(o)`: the type object of `o`. -/
def PyObject_Type (h : Heap) (o : PyPtr) : Option PyType :=
  (deref h o).map Py_TYPE

/-- `PySequence_Check(o)`: does `o` provide the sequence protocol. Tuples and
lists are the sequence objects of the model; strings and instances of classes
defining `__getitem__` are outside it. -/
def PySequence_Check (h : Heap) (o : PyPtr) : Bool :=
  match deref h o with
  | some (.tuple _) => true
  | some (.list _) => true
  | _ => false

/-- `PySequence_Length(o)`: number of items, `-1` on failure. -/
def PySequence_Length (h : Heap) (o : PyPtr) : Int :=
  match deref h o with
  | some (.tuple items) => items.length
  | some (.list items) => items.length
  | _ => -1

/-- `PySequence_GetItem(o, i)`: the `i`-th item, `NULL` on failure. -/
def PySequence_GetItem (h : Heap) (o : PyPtr) (i : Nat) : PyPtr :=
  match deref h o with
  | some (.tuple items) => items.getD i .NULL
  | some (.list items) => items.getD i .NULL
  | _ => .NULL

/-- `PyTuple_New(n)`: a new tuple of `n` null slots, `NULL` on failure. -/
def PyTuple_New (h : Heap) (n : Nat) : Heap × PyPtr :=
  alloc h (.tuple (List.replicate n .NULL))

/-- `PyTuple_SET_ITEM(t, i, v)`: store `v` in slot `i` of tuple `t`. -/
def PyTuple_SET_ITEM (h : Heap) (t : PyPtr) (i : Nat) (v : PyPtr) : Heap :=
  match t with
  | .obj a =>
    match h.objs a with
    | some (.tuple items) => { h with objs := Function.update h.objs a (some (.tuple (items.set i v))) }
    | _ => h
  | _ => h

/-- `PyList_SetItem(l, i, v)`: what a caller holding list `l` can do to it. -/
def PyList_SetItem (h : Heap) (l : PyPtr) (i : Nat) (v : PyPtr) : Heap :=
  match l with
  | .obj a =>
    match h.objs a with
    | some (.list items) => { h with objs := Function.update h.objs a (some (.list (items.set i v))) }
    | _ => h
  | _ => h

/-- `PyString_FromStringAndSize(buf, len)`: the new string object, represented
by its bytes; `none` when the allocation fails. -/
def PyString_FromStringAndSize (h : Heap) (buf : List Nat) : Option (List Nat) :=
  if h.avail = 0 then none else some buf

/-! ## Results -/

/-- Exceptions the file raises. -/
inductive PyErr where
  | TypeError
  | crypto_Error
  | MemoryError
  deriving DecidableEq, Repr

/-- Outcome of a C function implementing a Python call: `NULL` with an
exception set, or a value. -/
inductive PyRet (α : Type) where
  | raised (e : PyErr)
  | ok (v : α)
  deriving DecidableEq, Repr

/-- The PKCS12 object struct: three object pointers. -/
structure crypto_PKCS12Obj where
  cert : PyPtr
  key : PyPtr
  cacerts : PyPtr
  deriving DecidableEq, Repr

/-- State of `self` after a method call together with what the call returned. -/
structure MethodOut (α : Type) where
  self : crypto_PKCS12Obj
  ret : PyRet α
  deriving DecidableEq, Repr

/-! ## Accessors and setters -/

/-- Accessor `get_certificate` (lines 29-37); `parsed` is the outcome of
`PyArg_ParseTuple(args, ":get_certificate")`. -/
def crypto_PKCS12_get_certificate (self : crypto_PKCS12Obj) (parsed : Bool) : MethodOut PyPtr :=
  if !parsed then ⟨self, .raised .TypeError⟩
  else ⟨self, .ok self.cert⟩

/-- Setter `set_certificate` (lines 47-70); `args` is the object bound to
`cert` by `PyArg_ParseTupleAndKeywords`, `none` when parsing failed.
Returns `self` on success. -/
def crypto_PKCS12_set_certificate (h : Heap) (self : crypto_PKCS12Obj) (args : Option PyPtr) :
    MethodOut Unit :=
  match args with
  | none => ⟨self, .raised .TypeError⟩
  | some cert =>
    if cert ≠ .Py_None ∧ !PyObject_IsInstance h cert .crypto_X509_Type then
      ⟨self, .raised .TypeError⟩
    else
      ⟨{ self with cert := cert }, .ok ()⟩

/-- Accessor `get_privatekey` (lines 78-86). -/
def crypto_PKCS12_get_privatekey (self : crypto_PKCS12Obj) (parsed : Bool) : MethodOut PyPtr :=
  if !parsed then ⟨self, .raised .TypeError⟩
  else ⟨self, .ok self.key⟩

/-- Setter `set_privatekey` (lines 96-119). -/
def crypto_PKCS12_set_privatekey (h : Heap) (self : crypto_PKCS12Obj) (args : Option PyPtr) :
    MethodOut Unit :=
  match args with
  | none => ⟨self, .raised .TypeError⟩
  | some pkey =>
    if pkey ≠ .Py_None ∧ !PyObject_IsInstance h pkey .crypto_PKey_Type then
      ⟨self, .raised .TypeError⟩
    else
      ⟨{ self with key := pkey }, .ok ()⟩

/-- Accessor `get_ca_certificates` (lines 127-135). -/
def crypto_PKCS12_get_ca_certificates (self : crypto_PKCS12Obj) (parsed : Bool) : MethodOut PyPtr :=
  if !parsed then ⟨self, .raised .TypeError⟩
  else ⟨self, .ok self.cacerts⟩

/-- The `for` loop of `set_ca_certificates` (lines 158-167), started at index
`i` with `n` iterations left: `false` when some item fails the type test
(the loop returns `NULL`), `true` when the loop runs to its end. -/
def set_ca_certificates_loop (h : Heap) (cacerts : PyPtr) : Nat → Nat → Bool
  | 0, _ => true
  | n + 1, i =>
    let obj := PySequence_GetItem h cacerts i
    if PyObject_Type h obj ≠ some .crypto_X509_Type then false
    else set_ca_certificates_loop h cacerts n (i + 1)

/-- Setter `set_ca_certificates` (lines 145-181). -/
def crypto_PKCS12_set_ca_certificates (h : Heap) (self : crypto_PKCS12Obj) (args : Option PyPtr) :
    MethodOut Unit :=
  match args with
  | none => ⟨self, .raised .TypeError⟩
  | some cacerts =>
    if cacerts = .Py_None then
      ⟨{ self with cacerts := cacerts }, .ok ()⟩
    else if PySequence_Check h cacerts then
      if set_ca_certificates_loop h cacerts (PySequence_Length h cacerts).toNat 0 then
        ⟨{ self with cacerts := cacerts }, .ok ()⟩
      else
        ⟨self, .raised .TypeError⟩
    else
      ⟨self, .raised .TypeError⟩

/-! ## The OpenSSL backend -/

/-- A native `STACK_OF(X509)`. -/
abbrev STACK_OF_X509 := List Handle

/-- `sk_X509_new_null()`: a new empty stack (`none` would be the null stack). -/
def sk_X509_new_null : Option STACK_OF_X509 := some []

/-- `sk_X509_push(sk, x)`: append `x`; nothing happens on the null stack. -/
def sk_X509_push (sk : Option STACK_OF_X509) (x : Handle) : Option STACK_OF_X509 :=
  sk.map fun l => l ++ [x]

/-- `sk_X509_num(sk)`: number of entries, `-1` for the null stack. -/
def sk_X509_num (sk : Option STACK_OF_X509) : Int :=
  match sk with
  | some l => l.length
  | none => -1

/-- `sk_X509_value(sk, i)`: the `i`-th entry, null when out of range. -/
def sk_X509_value (sk : Option STACK_OF_X509) (i : Nat) : Handle :=
  match sk with
  | some l => l.getD i NULL
  | none => NULL

/-- OpenSSL constant `PKCS12_DEFAULT_ITER` (`PKCS5_DEFAULT_ITER`). -/
def PKCS12_DEFAULT_ITER : Int := 2048

/-- OpenSSL object identifier number of pbeWithSHA1And3-KeyTripleDES-CBC. -/
def NID_pbe_WithSHA1And3_Key_TripleDES_CBC : Int := 146

/-- The ten arguments of `PKCS12_create`, in order. -/
structure CreateArgs where
  pass : Option String
  name : Option String
  pkey : Handle
  cert : Handle
  ca : Option STACK_OF_X509
  nid_key : Int
  nid_cert : Int
  iter : Int
  mac_iter : Int
  keytype : Int
  deriving DecidableEq, Repr

/-- The OpenSSL routines used, over an archive type `P12`.
`PKCS12_parse p12 pass` is the call with a fresh empty CA stack: `none` when it
returns 0, else the key, the certificate and the filled CA stack.
`PKCS12_create` gives `none` for a null result. `i2d_PKCS12` is the encoding
written to the memory BIO, `d2i_PKCS12` the decoding of archive bytes;
`i2d_X509` and `i2d_PrivateKey` are the encodings of native certificates and
keys. -/
structure Backend (P12 : Type) where
  PKCS12_parse : P12 → Option String → Option (Handle × Handle × STACK_OF_X509)
  PKCS12_create : CreateArgs → Option P12
  i2d_PKCS12 : P12 → List Nat
  d2i_PKCS12 : List Nat → Option P12
  i2d_X509 : Handle → List Nat
  i2d_PrivateKey : Handle → List Nat

/-- A recorded invocation of a backend routine. -/
inductive BackendCall (P12 : Type) where
  | parse (p12 : P12) (passphrase : Option String)
  | create (args : CreateArgs)
  | encode (p12 : P12)

/-! ## The constructor -/

/-- Modelled from the spec: `crypto_X509_New` of the sibling module x509.c is
missing; it constructs a Certificate wrapper from a native handle, taking
ownership, and gives `NULL` when the wrapper cannot be allocated. -/
def crypto_X509_New (h : Heap) (cert : Handle) : Heap × PyPtr :=
  alloc h (.X509Obj none cert)

/-- Modelled from the spec: `crypto_PKey_New` of the sibling module pkey.c is
missing; it constructs a PrivateKey wrapper from a native handle, taking
ownership, and gives `NULL` when the wrapper cannot be allocated. -/
def crypto_PKey_New (h : Heap) (pkey : Handle) : Heap × PyPtr :=
  alloc h (.PKeyObj none pkey)

/-- The `for` loop of `crypto_PKCS12_New` (lines 334-340), started at index `i`
with `n` iterations left; `none` is the jump to `error`. -/
def New_loop (cacerts : Option STACK_OF_X509) (tuple : PyPtr) : Nat → Nat → Heap → Option Heap
  | 0, _, h => some h
  | n + 1, i, h =>
    let cert := sk_X509_value cacerts i
    let r := crypto_X509_New h cert
    if r.2 = .NULL then none
    else New_loop cacerts tuple n (i + 1) (PyTuple_SET_ITEM r.1 tuple i r.2)

/-- Lines 303-349 of `crypto_PKCS12_New`: build the object from the extracted
key, certificate and CA stack. On the `error` exit everything allocated is
released, so the heap is the one at entry. -/
def New_build (h : Heap) (pkey cert : Handle) (cacerts : Option STACK_OF_X509) :
    Heap × PyRet crypto_PKCS12Obj :=
  let r0 := alloc h .PKCS12Obj
  if r0.2 = .NULL then (h, .raised .MemoryError)
  else
    let r1 := if cert = NULL then (r0.1, PyPtr.Py_None) else crypto_X509_New r0.1 cert
    if r1.2 = .NULL then (h, .raised .MemoryError)
    else
      let r2 := if pkey = NULL then (r1.1, PyPtr.Py_None) else crypto_PKey_New r1.1 pkey
      if r2.2 = .NULL then (h, .raised .MemoryError)
      else
        let cacert_count := sk_X509_num cacerts
        if cacert_count > 0 then
          let r3 := PyTuple_New r2.1 cacert_count.toNat
          if r3.2 = .NULL then (h, .raised .MemoryError)
          else
            match New_loop cacerts r3.2 cacert_count.toNat 0 r3.1 with
            | none => (h, .raised .MemoryError)
            | some h4 => (h4, .ok ⟨r1.2, r2.2, r3.2⟩)
        else
          (r2.1, .ok ⟨r1.2, r2.2, .Py_None⟩)

/-- Result of the constructor: the heap, the new object or the exception, and
the backend calls made. -/
structure NewOut (P12 : Type) where
  heap : Heap
  ret : PyRet crypto_PKCS12Obj
  calls : List (BackendCall P12)

/-- Constructor `crypto_PKCS12_New(p12, passphrase)` (lines 281-350); `p12 = none`
is the null archive, `passphrase = none` the null string. -/
def crypto_PKCS12_New {P12 : Type} (b : Backend P12) (h : Heap) (p12 : Option P12)
    (passphrase : Option String) : NewOut P12 :=
  let cacerts := sk_X509_new_null
  match p12 with
  | none =>
    let r := New_build h NULL NULL cacerts
    ⟨r.1, r.2, []⟩
  | some a =>
    match cacerts with
    | none => ⟨h, .raised .crypto_Error, []⟩
    | some _ =>
      match b.PKCS12_parse a passphrase with
      | none => ⟨h, .raised .crypto_Error, [.parse a passphrase]⟩
      | some (pkey, cert, ca) =>
        let r := New_build h pkey cert (some ca)
        ⟨r.1, r.2, [.parse a passphrase]⟩

/-! ## Export -/

/-- Outcome of parsing the arguments of `export` with format `|zzii`: each
optional argument is `none` when not supplied (for the strings also when
`None` was passed). -/
structure ExportArgs where
  passphrase : Option String
  friendly_name : Option String
  iter : Option Int
  maciter : Option Int
  deriving DecidableEq, Repr

/-- What `export` returned and the backend calls it made. -/
structure ExportOut (P12 : Type) where
  ret : PyRet (List Nat)
  calls : List (BackendCall P12)

/-- The read `((crypto_X509Obj *) obj)->x509`: defined only when `obj` has the
layout of a Certificate wrapper. -/
def X509Obj_x509 (h : Heap) (obj : PyPtr) : Option Handle :=
  match deref h obj with
  | some (.X509Obj _ x) => some x
  | _ => none

/-- The read `((crypto_PKeyObj *) obj)->pkey`: defined only when `obj` has the
layout of a PrivateKey wrapper. -/
def PKeyObj_pkey (h : Heap) (obj : PyPtr) : Option Handle :=
  match deref h obj with
  | some (.PKeyObj _ k) => some k
  | _ => none

/-- The `for` loop of `export` (lines 226-231), started at index `i` with `n`
iterations left; `none` when an item is read as a Certificate wrapper without
being one. -/
def export_loop (h : Heap) (seq : PyPtr) :
    Nat → Nat → Option STACK_OF_X509 → Option (Option STACK_OF_X509)
  | 0, _, cacerts => some cacerts
  | n + 1, i, cacerts =>
    let obj := PySequence_GetItem h seq i
    match X509Obj_x509 h obj with
    | none => none
    | some x => export_loop h seq n (i + 1) (sk_X509_push cacerts x)

/-- The arguments `export` computes for `PKCS12_create` (lines 216-237);
`none` when a stored pointer is read through a wrapper struct it does not
point to, where the C code has no defined behaviour. -/
def export_create_args (h : Heap) (self : crypto_PKCS12Obj) (a : ExportArgs) : Option CreateArgs :=
  let iter := a.iter.getD PKCS12_DEFAULT_ITER
  let maciter := a.maciter.getD 0
  (if self.key ≠ .NULL ∧ self.key ≠ .Py_None then PKeyObj_pkey h self.key else some NULL).bind
  fun pkey =>
  (if self.cert ≠ .NULL ∧ self.cert ≠ .Py_None then X509Obj_x509 h self.cert else some NULL).bind
  fun x509 =>
  (if self.cacerts ≠ .NULL ∧ self.cacerts ≠ .Py_None then
    export_loop h self.cacerts (PySequence_Length h self.cacerts).toNat 0 sk_X509_new_null
   else some sk_X509_new_null).bind
  fun cacerts =>
  some ⟨a.passphrase, a.friendly_name, pkey, x509, cacerts,
    NID_pbe_WithSHA1And3_Key_TripleDES_CBC, NID_pbe_WithSHA1And3_Key_TripleDES_CBC,
    iter, maciter, 0⟩

/-- Method `export` (lines 197-248); `args = none` when argument parsing
failed; the result is `none` where the C code has no defined behaviour. -/
def crypto_PKCS12_export {P12 : Type} (b : Backend P12) (h : Heap) (self : crypto_PKCS12Obj)
    (args : Option ExportArgs) : Option (ExportOut P12) :=
  match args with
  | none => some ⟨.raised .TypeError, []⟩
  | some a =>
    match export_create_args h self a with
    | none => none
    | some cargs =>
      match b.PKCS12_create cargs with
      | none => some ⟨.raised .crypto_Error, [.create cargs]⟩
      | some p12 =>
        let temp := b.i2d_PKCS12 p12
        match PyString_FromStringAndSize h temp with
        | none => some ⟨.raised .MemoryError, [.create cargs, .encode p12]⟩
        | some buffer => some ⟨.ok buffer, [.create cargs, .encode p12]⟩

/-! ## Predicates used in the statements -/

/-- A field is absent: the null pointer or `None`. -/
def Absent (p : PyPtr) : Prop := p = .NULL ∨ p = .Py_None

/-- Pointer `p` refers to a Certificate wrapper (of the certificate type or of
a class derived from it) holding native handle `c`. -/
def IsCert (h : Heap) (p : PyPtr) (c : Handle) : Prop :=
  ∃ s, deref h p = some (.X509Obj s c)

/-- Pointer `p` refers to a PrivateKey wrapper holding native handle `k`. -/
def IsPKey (h : Heap) (p : PyPtr) (k : Handle) : Prop :=
  ∃ s, deref h p = some (.PKeyObj s k)

/-- Pointer `p` refers to a sequence object (tuple or list) with these items. -/
def IsSeq (h : Heap) (p : PyPtr) (items : List PyPtr) : Prop :=
  deref h p = some (.tuple items) ∨ deref h p = some (.list items)

/-- A CA wrapper stored at an address below `next` other than `t`. -/
def IsWrapperAt (h : Heap) (t : Nat) (p : PyPtr) (c : Handle) : Prop :=
  ∃ a, p = .obj a ∧ a ≠ t ∧ a < h.next ∧ h.objs a = some (.X509Obj none c)

/-- The CA field is absent or a sequence whose items all have exactly the
certificate type. -/
def CaInv (h : Heap) (self : crypto_PKCS12Obj) : Prop :=
  self.cacerts = .Py_None ∨
    ∃ items, IsSeq h self.cacerts items ∧
      ∀ p ∈ items, PyObject_Type h p = some .crypto_X509_Type

/-- The stored pointers are usable by `export`: each of key and certificate is
absent or a wrapper of the right kind, and the CA field is absent or a
sequence of Certificate wrappers. -/
def ValidBundle (h : Heap) (self : crypto_PKCS12Obj) : Prop :=
  (Absent self.key ∨ ∃ k, IsPKey h self.key k) ∧
  (Absent self.cert ∨ ∃ c, IsCert h self.cert c) ∧
  (Absent self.cacerts ∨
    ∃ items, IsSeq h self.cacerts items ∧ ∀ p ∈ items, ∃ c, IsCert h p c)

/-- A backend for the examples: an archive is the list
`[48, key, certificate, CA certificates...]`, its own encoding; the passphrase
is ignored; a list shorter than three entries is malformed. -/
def exBackend : Backend (List Nat) where
  PKCS12_parse p12 _ :=
    match p12 with
    | _ :: k :: c :: cas => some (k, c, cas)
    | _ => none
  PKCS12_create a := some (48 :: a.pkey :: a.cert :: a.ca.getD [])
  i2d_PKCS12 p12 := p12
  d2i_PKCS12 bytes := some bytes
  i2d_X509 x := [x]
  i2d_PrivateKey k := [k]

/-- A backend whose creation routine always fails. -/
def exFailing : Backend (List Nat) :=
  { exBackend with PKCS12_create := fun _ => none }

/-! ## Round trip through the backend -/

/-- Two native handles are equivalent: both null, or both non-null with the
same encoded bytes under `enc`. -/
def HandleEquiv (enc : Handle → List Nat) (x y : Handle) : Prop :=
  (x = NULL ↔ y = NULL) ∧ enc x = enc y

/-- The backend assumption of the round trip: with passphrase `p`, decoding
and extracting inverts creating and encoding, up to `HandleEquiv`. -/
def Inverts {P12 : Type} (b : Backend P12) (p : Option String) : Prop :=
  ∀ (args : CreateArgs) (p12 : P12), args.pass = p → b.PKCS12_create args = some p12 →
    ∃ q pkey cert ca, b.d2i_PKCS12 (b.i2d_PKCS12 p12) = some q ∧
      b.PKCS12_parse q p = some (pkey, cert, ca) ∧
      HandleEquiv b.i2d_PrivateKey pkey args.pkey ∧
      HandleEquiv b.i2d_X509 cert args.cert ∧
      List.Forall₂ (HandleEquiv b.i2d_X509) ca (args.ca.getD [])

/-- Two certificate fields are equivalent: both `None`, or both Certificate
wrappers of handles with the same encoded bytes. -/
def CertEquiv {P12 : Type} (b : Backend P12) (h1 : Heap) (p1 : PyPtr) (h2 : Heap) (p2 : PyPtr) :
    Prop :=
  (p1 = .Py_None ∧ p2 = .Py_None) ∨
    ∃ c1 c2, IsCert h1 p1 c1 ∧ IsCert h2 p2 c2 ∧ b.i2d_X509 c1 = b.i2d_X509 c2

/-- Two key fields are equivalent: both `None`, or both PrivateKey wrappers of
handles with the same encoded bytes. -/
def KeyEquiv {P12 : Type} (b : Backend P12) (h1 : Heap) (p1 : PyPtr) (h2 : Heap) (p2 : PyPtr) :
    Prop :=
  (p1 = .Py_None ∧ p2 = .Py_None) ∨
    ∃ k1 k2, IsPKey h1 p1 k1 ∧ IsPKey h2 p2 k2 ∧ b.i2d_PrivateKey k1 = b.i2d_PrivateKey k2

/-- Two CA fields are equivalent: both `None` (absent), or both sequences of
the same length with equivalent certificates at each position. An absent field
is not equivalent to an empty sequence. -/
def CaListEquiv {P12 : Type} (b : Backend P12) (h1 : Heap) (p1 : PyPtr) (h2 : Heap)
    (p2 : PyPtr) : Prop :=
  (p1 = .Py_None ∧ p2 = .Py_None) ∨
    ∃ l1 l2, IsSeq h1 p1 l1 ∧ IsSeq h2 p2 l2 ∧
      List.Forall₂ (fun x y => CertEquiv b h1 x h2 y) l1 l2

/-- A valid (certificate, key, CA list) triple with CA items `items`: the
certificate is `None` or a wrapper of a non-null handle, likewise the key, and
the CA field is `None` (then `items` is empty) or a sequence of Certificate
wrappers. -/
def ValidTriple (h : Heap) (self : crypto_PKCS12Obj) (items : List PyPtr) : Prop :=
  (self.cert = .Py_None ∨ ∃ c, IsCert h self.cert c ∧ c ≠ NULL) ∧
  (self.key = .Py_None ∨ ∃ k, IsPKey h self.key k ∧ k ≠ NULL) ∧
  ((self.cacerts = .Py_None ∧ items = []) ∨ IsSeq h self.cacerts items) ∧
  ∀ x ∈ items, ∃ c, IsCert h x c

/-- An object holding certificate 10, key 12 and the empty CA tuple 24. -/
def exEmptyCa : crypto_PKCS12Obj := ⟨.obj 10, .obj 12, .obj 24⟩

/-! ## Concrete data used to instantiate the results -/

/-- A heap with two certificates (10, 11), a private key (12), an integer
(13), an instance of a class derived from the certificate type (14), an
instance of a class derived from the key type (15), a tuple of the two
certificates (20), a list holding a certificate and the integer (21), a list
holding one certificate (22), a generator yielding the two certificates (23)
and an empty tuple (24). -/
def exHeap : Heap :=
  ⟨fun a =>
    match a with
    | 10 => some (.X509Obj none 101)
    | 11 => some (.X509Obj none 102)
    | 12 => some (.PKeyObj none 201)
    | 13 => some (.other 7)
    | 14 => some (.X509Obj (some 1) 103)
    | 15 => some (.PKeyObj (some 2) 202)
    | 20 => some (.tuple [.obj 10, .obj 11])
    | 21 => some (.list [.obj 10, .obj 13])
    | 22 => some (.list [.obj 10])
    | 23 => some (.generator [.obj 10, .obj 11])
    | 24 => some (.tuple [])
    | _ => none,
   30, 10⟩

/-- A PKCS12 object with all three fields absent. -/
def exEmpty : crypto_PKCS12Obj := ⟨.Py_None, .Py_None, .Py_None⟩

/-- A PKCS12 object holding certificate 10, key 12 and the CA tuple 20. -/
def exFull : crypto_PKCS12Obj := ⟨.obj 10, .obj 12, .obj 20⟩

/-! ## Lemmas on the CPython model -/

theorem PySequence_Check_None (h : Heap) : PySequence_Check h .Py_None = false := rfl

/-- The type-checking loop succeeds exactly when every item it visits has
type `crypto_X509_Type`. -/
theorem set_ca_certificates_loop_eq_true (h : Heap) (c : PyPtr) (n i : Nat) :
    set_ca_certificates_loop h c n i = true ↔
      ∀ j, i ≤ j → j < i + n →
        PyObject_Type h (PySequence_GetItem h c j) = some .crypto_X509_Type := by
  induction n generalizing i with
  | zero =>
    simp only [set_ca_certificates_loop, true_iff]
    intro j h1 h2
    omega
  | succ n ih =>
    simp only [set_ca_certificates_loop]
    by_cases hi : PyObject_Type h (PySequence_GetItem h c i) = some .crypto_X509_Type
    · simp only [hi, ne_eq, not_true_eq_false, if_false, ih]
      constructor
      · intro hall j h1 h2
        by_cases hji : j = i
        · subst hji; exact hi
        · exact hall j (by omega) (by omega)
      · intro hall j h1 h2
        exact hall j (by omega) (by omega)
    · simp only [ne_eq, hi, not_false_eq_true, if_true, Bool.false_eq_true, false_iff]
      intro hall
      exact hi (hall i (le_refl _) (by omega))

/-- Items and length of a sequence object, read through the sequence API. -/
theorem sequence_api (h : Heap) (c : PyPtr) (items : List PyPtr)
    (hc : deref h c = some (.tuple items) ∨ deref h c = some (.list items)) :
    PySequence_Check h c = true ∧ PySequence_Length h c = items.length ∧
      ∀ j, PySequence_GetItem h c j = items.getD j .NULL := by
  rcases hc with hc | hc <;> simp [PySequence_Check, PySequence_Length, PySequence_GetItem, hc]

/-! ## C1: an invalid element makes `set_ca_certificates` fail without effect -/

/-- C1. For every object state and every sequence argument (tuple or list)
with an item whose type is not the certificate type, `set_ca_certificates`
raises `TypeError` and leaves the three fields as they were. An item that is
not an instance of the certificate type is such an item. -/
theorem set_ca_certificates_rejects_invalid_element (h : Heap) (self : crypto_PKCS12Obj)
    (cacerts : PyPtr) (items : List PyPtr) (x : PyPtr)
    (hc : deref h cacerts = some (.tuple items) ∨ deref h cacerts = some (.list items))
    (hx : x ∈ items) (hbad : PyObject_Type h x ≠ some .crypto_X509_Type) :
    crypto_PKCS12_set_ca_certificates h self (some cacerts) = ⟨self, .raised .TypeError⟩ := by
  obtain ⟨hchk, hlen, hget⟩ := sequence_api h cacerts items hc
  have hne : cacerts ≠ .Py_None := by
    intro he
    rw [he, PySequence_Check_None] at hchk
    exact Bool.false_ne_true hchk
  have hloop : set_ca_certificates_loop h cacerts (PySequence_Length h cacerts).toNat 0 = false := by
    rw [Bool.eq_false_iff]
    intro ht
    rw [set_ca_certificates_loop_eq_true] at ht
    obtain ⟨j, hj, hjx⟩ := List.getElem_of_mem hx
    have := ht j (Nat.zero_le _) (by rw [hlen]; simpa using hj)
    rw [hget j, List.getD_eq_getElem _ _ hj, hjx] at this
    exact hbad this
  simp [crypto_PKCS12_set_ca_certificates, hne, hchk, hloop]

/-- C1 at the list `[certificate, integer]` and an object holding a
certificate, a key and a CA tuple. -/
theorem set_ca_certificates_rejects_invalid_element_witness :
    crypto_PKCS12_set_ca_certificates exHeap exFull (some (.obj 21))
      = ⟨exFull, .raised .TypeError⟩ :=
  set_ca_certificates_rejects_invalid_element exHeap exFull (.obj 21) [.obj 10, .obj 13] (.obj 13)
    (Or.inr rfl) (by decide) (by decide)

/-! ## C2: the type test of `set_certificate` and `set_privatekey` -/

/-- C2 as stated fails: object 14 is neither `None` nor of type exactly
`crypto_X509_Type` (it is an instance of a derived class), yet
`set_certificate` accepts and stores it; likewise object 15 for
`set_privatekey`. -/
theorem set_certificate_accepts_derived_instance :
    (PyPtr.obj 14 ≠ .Py_None ∧ PyObject_Type exHeap (.obj 14) ≠ some .crypto_X509_Type ∧
      crypto_PKCS12_set_certificate exHeap exEmpty (some (.obj 14))
        = ⟨⟨.obj 14, .Py_None, .Py_None⟩, .ok ()⟩) ∧
    (PyPtr.obj 15 ≠ .Py_None ∧ PyObject_Type exHeap (.obj 15) ≠ some .crypto_PKey_Type ∧
      crypto_PKCS12_set_privatekey exHeap exEmpty (some (.obj 15))
        = ⟨⟨.Py_None, .obj 15, .Py_None⟩, .ok ()⟩) := by
  decide

/-- C2 amended. `set_certificate(v)` raises `TypeError` exactly when `v` is
neither `None` nor an instance of the certificate type (its type is that type
or derives from it), and then no field changes; otherwise it stores `v` in the
certificate field only. The same holds for `set_privatekey` with the key type
and the key field. -/
theorem set_certificate_set_privatekey_type_test (h : Heap) (self : crypto_PKCS12Obj) (v : PyPtr) :
    (crypto_PKCS12_set_certificate h self (some v) =
      if v ≠ .Py_None ∧ PyObject_IsInstance h v .crypto_X509_Type = false
      then ⟨self, .raised .TypeError⟩
      else ⟨⟨v, self.key, self.cacerts⟩, .ok ()⟩) ∧
    (crypto_PKCS12_set_privatekey h self (some v) =
      if v ≠ .Py_None ∧ PyObject_IsInstance h v .crypto_PKey_Type = false
      then ⟨self, .raised .TypeError⟩
      else ⟨⟨self.cert, v, self.cacerts⟩, .ok ()⟩) := by
  constructor
  · simp [crypto_PKCS12_set_certificate]
  · simp [crypto_PKCS12_set_privatekey]

/-- C2 amended, at the integer 13: both setters raise `TypeError` and leave
the full example object as it was. -/
theorem set_certificate_set_privatekey_type_test_witness :
    crypto_PKCS12_set_certificate exHeap exFull (some (.obj 13))
      = ⟨exFull, .raised .TypeError⟩ ∧
    crypto_PKCS12_set_privatekey exHeap exFull (some (.obj 13))
      = ⟨exFull, .raised .TypeError⟩ := by
  have hw := set_certificate_set_privatekey_type_test exHeap exFull (.obj 13)
  rw [if_pos (by decide), if_pos (by decide)] at hw
  exact hw

/-! ## C3: `set_certificate` then `get_certificate` -/

/-- C3. For every object state, `set_certificate(None)` succeeds and the next
`get_certificate()` returns `None` without raising; and whenever
`set_certificate(v)` succeeds, the next `get_certificate()` returns `v`. -/
theorem set_certificate_then_get_certificate (h : Heap) (self : crypto_PKCS12Obj) :
    (crypto_PKCS12_set_certificate h self (some .Py_None)).ret = .ok () ∧
    (crypto_PKCS12_get_certificate
      (crypto_PKCS12_set_certificate h self (some .Py_None)).self true).ret = .ok .Py_None ∧
    ∀ v, (crypto_PKCS12_set_certificate h self (some v)).ret = .ok () →
      (crypto_PKCS12_get_certificate
        (crypto_PKCS12_set_certificate h self (some v)).self true).ret = .ok v := by
  refine ⟨by simp [crypto_PKCS12_set_certificate], ?_, ?_⟩
  · simp [crypto_PKCS12_set_certificate, crypto_PKCS12_get_certificate]
  · intro v hv
    unfold crypto_PKCS12_set_certificate at hv ⊢
    by_cases hc : v ≠ .Py_None ∧ (!PyObject_IsInstance h v .crypto_X509_Type) = true
    · simp [hc] at hv
    · simp only [if_neg hc]
      simp [crypto_PKCS12_get_certificate]

/-- C3 at certificate 10, set on an object that held another state. -/
theorem set_certificate_then_get_certificate_witness :
    (crypto_PKCS12_set_certificate exHeap exFull (some (.obj 11))).ret = .ok () ∧
    (crypto_PKCS12_get_certificate
      (crypto_PKCS12_set_certificate exHeap exFull (some (.obj 11))).self true).ret
        = .ok (.obj 11) :=
  ⟨by decide,
   (set_certificate_then_get_certificate exHeap exFull).2.2 (.obj 11) (by decide)⟩

/-! ## The constructor: heap lemmas -/

theorem alloc_of_avail (h : Heap) (o : PyObject) (hav : 0 < h.avail) :
    alloc h o = (⟨Function.update h.objs h.next (some o), h.next + 1, h.avail - 1⟩, .obj h.next) := by
  unfold alloc
  rw [if_neg (by omega)]

theorem alloc_of_exhausted (h : Heap) (o : PyObject) (hav : h.avail = 0) :
    alloc h o = (h, .NULL) := by
  unfold alloc
  rw [if_pos hav]


theorem PyTuple_SET_ITEM_avail (h : Heap) (t : PyPtr) (i : Nat) (v : PyPtr) :
    (PyTuple_SET_ITEM h t i v).avail = h.avail := by
  unfold PyTuple_SET_ITEM
  split
  · split <;> rfl
  · rfl

/-- With enough memory the wrapping loop runs to its end. -/
theorem New_loop_total (ca : Option STACK_OF_X509) (t : PyPtr) :
    ∀ (n i : Nat) (h : Heap), n ≤ h.avail → ∃ h1, New_loop ca t n i h = some h1 := by
  intro n
  induction n with
  | zero => intro i h _; exact ⟨h, rfl⟩
  | succ n ih =>
    intro i h hav
    simp only [New_loop, crypto_X509_New, alloc_of_avail h _ (by omega : 0 < h.avail)]
    rw [if_neg (by simp)]
    apply ih
    rw [PyTuple_SET_ITEM_avail]
    show n ≤ h.avail - 1
    omega

/-- When the wrapping loop runs to its end, the tuple at `t` holds new
wrappers of the stack entries in order, and no other object has changed. -/
theorem New_loop_spec (ca : List Handle) (t : Nat) :
    ∀ (n i : Nat) (h : Heap) (pre : List PyPtr) (h1 : Heap),
      i + n = ca.length → pre.length = i → t < h.next →
      h.objs t = some (.tuple (pre ++ List.replicate n .NULL)) →
      List.Forall₂ (IsWrapperAt h t) pre (ca.take i) →
      New_loop (some ca) (.obj t) n i h = some h1 →
      ∃ items, h1.objs t = some (.tuple items) ∧ List.Forall₂ (IsWrapperAt h1 t) items ca ∧
        (∀ a, a < h.next → a ≠ t → h1.objs a = h.objs a) ∧ h.next ≤ h1.next := by
  intro n
  induction n with
  | zero =>
    intro i h pre h1 hin hpre _ hobj hrel hrun
    simp only [New_loop, Option.some.injEq] at hrun
    subst hrun
    refine ⟨pre, by simpa using hobj, ?_, fun _ _ _ => rfl, le_refl _⟩
    have : ca.take i = ca := List.take_of_length_le (by omega)
    rwa [this] at hrel
  | succ n ih =>
    intro i h pre h1 hin hpre ht hobj hrel hrun
    have hi : i < ca.length := by omega
    have hne : t ≠ h.next := by omega
    by_cases hav0 : h.avail = 0
    · simp [New_loop, crypto_X509_New, alloc_of_exhausted h _ hav0] at hrun
    simp only [New_loop, crypto_X509_New, alloc_of_avail h _ (by omega : 0 < h.avail)] at hrun
    rw [if_neg (by simp)] at hrun
    have hset : PyTuple_SET_ITEM
        ⟨Function.update h.objs h.next (some (.X509Obj none (sk_X509_value (some ca) i))),
          h.next + 1, h.avail - 1⟩ (.obj t) i (.obj h.next)
        = ⟨Function.update (Function.update h.objs h.next
              (some (.X509Obj none (sk_X509_value (some ca) i)))) t
              (some (.tuple ((pre ++ [.obj h.next]) ++ List.replicate n .NULL))),
            h.next + 1, h.avail - 1⟩ := by
      simp only [PyTuple_SET_ITEM, Function.update_noteq hne, hobj]
      congr 3
      rw [List.set_append_right _ _ (by omega), hpre, Nat.sub_self, List.replicate_succ,
        List.set_cons_zero, List.append_assoc, List.singleton_append]
    rw [hset] at hrun
    have hval : sk_X509_value (some ca) i = ca[i] := by
      simp only [sk_X509_value]
      exact List.getD_eq_getElem _ _ hi
    have hrel2 : List.Forall₂
        (IsWrapperAt ⟨Function.update (Function.update h.objs h.next
              (some (.X509Obj none (sk_X509_value (some ca) i)))) t
              (some (.tuple ((pre ++ [.obj h.next]) ++ List.replicate n .NULL))),
            h.next + 1, h.avail - 1⟩ t)
        (pre ++ [.obj h.next]) (ca.take (i + 1)) := by
      rw [List.take_succ, List.getElem?_eq_getElem hi]
      apply List.rel_append
      · refine hrel.imp ?_
        rintro p c ⟨a, rfl, hat, hlt, hoa⟩
        refine ⟨a, rfl, hat, Nat.lt_succ_of_lt hlt, ?_⟩
        show Function.update (Function.update h.objs h.next _) t _ a = _
        rw [Function.update_noteq hat, Function.update_noteq (by omega), hoa]
      · simp only [Option.toList]
        refine List.Forall₂.cons ⟨h.next, rfl, fun e => hne e.symm, Nat.lt_succ_self _, ?_⟩
          List.Forall₂.nil
        show Function.update (Function.update h.objs h.next _) t _ h.next = _
        rw [Function.update_noteq (fun e => hne e.symm), Function.update_same, hval]
    obtain ⟨items, hobj1, hrel1, hframe, hnext⟩ :=
      ih (i + 1) _ (pre ++ [.obj h.next]) h1 (by omega) (by simp [hpre])
        (show t < h.next + 1 by omega)
        (show Function.update (Function.update h.objs h.next _) t _ t = _ by
          rw [Function.update_same]) hrel2 hrun
    refine ⟨items, hobj1, hrel1, ?_, Nat.le_of_succ_le hnext⟩
    intro a ha hat
    rw [hframe a (Nat.lt_succ_of_lt ha) hat]
    show Function.update (Function.update h.objs h.next _) t _ a = _
    rw [Function.update_noteq hat, Function.update_noteq (by omega)]

/-- One optional wrapping step (lines 311-317 and 318-324): it fails with a
null result, or gives `None` for a null handle and a new wrapper otherwise. -/
theorem wrap_step_spec (h : Heap) (x : Handle) (mk : Handle → PyObject) :
    (x ≠ NULL ∧ h.avail = 0 ∧
      (if x = NULL then (h, PyPtr.Py_None) else alloc h (mk x)).2 = .NULL) ∨
    ∃ h1 p, (if x = NULL then (h, PyPtr.Py_None) else alloc h (mk x)) = (h1, p) ∧
      p ≠ .NULL ∧ h.next ≤ h1.next ∧ h.avail ≤ h1.avail + 1 ∧
      (∀ a, a < h.next → h1.objs a = h.objs a) ∧
      (if x = NULL then p = .Py_None
       else ∃ a, p = .obj a ∧ a < h1.next ∧ h1.objs a = some (mk x)) := by
  by_cases hx : x = NULL
  · right
    refine ⟨h, .Py_None, by rw [if_pos hx], by simp, le_refl _, by omega, fun _ _ => rfl, ?_⟩
    rw [if_pos hx]
  · by_cases hav : h.avail = 0
    · left
      exact ⟨hx, hav, by rw [if_neg hx, alloc_of_exhausted h _ hav]⟩
    · right
      refine ⟨_, _, by rw [if_neg hx, alloc_of_avail h _ (by omega)], by simp, Nat.le_succ _,
        (show h.avail ≤ h.avail - 1 + 1 by omega), ?_, ?_⟩
      · intro a ha
        show Function.update h.objs h.next _ a = _
        rw [Function.update_noteq (by omega)]
      · rw [if_neg hx]
        exact ⟨h.next, rfl, Nat.lt_succ_self _, by
          show Function.update h.objs h.next _ h.next = _; rw [Function.update_same]⟩

/-- What a successful run of lines 303-346 built: an absent field for a null
handle, a new wrapper otherwise; for the CA stack `None` when it is empty and
otherwise a tuple of new wrappers in stack order. Objects already in the heap
are untouched. -/
theorem New_build_spec (h : Heap) (pkey cert : Handle) (ca : List Handle)
    (h1 : Heap) (self : crypto_PKCS12Obj)
    (hrun : New_build h pkey cert (some ca) = (h1, .ok self)) :
    (if cert = NULL then self.cert = .Py_None
     else deref h1 self.cert = some (.X509Obj none cert)) ∧
    (if pkey = NULL then self.key = .Py_None
     else deref h1 self.key = some (.PKeyObj none pkey)) ∧
    (if ca = [] then self.cacerts = .Py_None
     else ∃ items, deref h1 self.cacerts = some (.tuple items) ∧
      List.Forall₂ (fun p c => deref h1 p = some (.X509Obj none c)) items ca) ∧
    ∀ a, a < h.next → h1.objs a = h.objs a := by
  by_cases hav : h.avail = 0
  · simp [New_build, alloc_of_exhausted h _ hav] at hrun
  simp only [New_build, alloc_of_avail h .PKCS12Obj (by omega : 0 < h.avail), crypto_X509_New,
    crypto_PKey_New] at hrun
  rw [if_neg (by simp)] at hrun
  rcases wrap_step_spec ⟨Function.update h.objs h.next (some .PKCS12Obj), h.next + 1, h.avail - 1⟩
      cert (fun c => .X509Obj none c) with ⟨_, _, hnull⟩ | ⟨hA, pc, hrc, hpc, hnA, _, hfA, hcert⟩
  · rw [if_pos hnull] at hrun
    simp at hrun
  rw [hrc] at hrun
  simp only at hrun hnA hfA
  rw [if_neg hpc] at hrun
  rcases wrap_step_spec hA pkey (fun k => .PKeyObj none k) with
    ⟨_, _, hnull⟩ | ⟨hB, pk, hrk, hpk, hnB, _, hfB, hkey⟩
  · rw [if_pos hnull] at hrun
    simp at hrun
  rw [hrk] at hrun
  simp only at hrun
  rw [if_neg hpk] at hrun
  have hold : ∀ a, a < h.next → hB.objs a = h.objs a := by
    intro a ha
    rw [hfB a (by omega), hfA a (by omega), Function.update_noteq (by omega)]
  by_cases hca : ca = []
  · subst hca
    rw [if_neg (by simp [sk_X509_num])] at hrun
    simp only [Prod.mk.injEq, PyRet.ok.injEq] at hrun
    obtain ⟨rfl, rfl⟩ := hrun
    refine ⟨?_, ?_, by simp, hold⟩
    · by_cases hx : cert = NULL
      · rw [if_pos hx] at hcert ⊢; exact hcert
      · rw [if_neg hx] at hcert ⊢
        obtain ⟨a, rfl, ha, hoa⟩ := hcert
        show hB.objs a = _
        rw [hfB a ha, hoa]
    · by_cases hx : pkey = NULL
      · rw [if_pos hx] at hkey ⊢; exact hkey
      · rw [if_neg hx] at hkey ⊢
        obtain ⟨a, rfl, _, hoa⟩ := hkey
        exact hoa
  · have hpos : 0 < ca.length := List.length_pos.mpr hca
    rw [if_pos (by simp [sk_X509_num]; omega)] at hrun
    have hcount : (sk_X509_num (some ca)).toNat = ca.length := by simp [sk_X509_num]
    rw [hcount] at hrun
    by_cases havB : hB.avail = 0
    · simp [PyTuple_New, alloc_of_exhausted hB _ havB] at hrun
    simp only [PyTuple_New, alloc_of_avail hB _ (by omega : 0 < hB.avail)] at hrun
    rw [if_neg (by simp)] at hrun
    cases hloop : New_loop (some ca) (.obj hB.next) ca.length 0
        ⟨Function.update hB.objs hB.next (some (.tuple (List.replicate ca.length .NULL))),
          hB.next + 1, hB.avail - 1⟩ with
    | none => simp [hloop] at hrun
    | some h4 =>
      rw [hloop] at hrun
      simp only [Prod.mk.injEq, PyRet.ok.injEq] at hrun
      obtain ⟨rfl, rfl⟩ := hrun
      obtain ⟨items, hobj, hrel, hframe0, _⟩ :=
        New_loop_spec ca hB.next ca.length 0 _ [] h4 (by omega) rfl
          (show hB.next < hB.next + 1 by omega)
          (show Function.update hB.objs hB.next _ hB.next = _ by
            rw [Function.update_same]; rfl)
          (by simp) hloop
      have hframe : ∀ a, a < hB.next → h4.objs a = hB.objs a := by
        intro a ha
        rw [hframe0 a (Nat.lt_succ_of_lt ha) (by omega)]
        show Function.update hB.objs hB.next _ a = _
        rw [Function.update_noteq (by omega)]
      refine ⟨?_, ?_, ?_, ?_⟩
      · by_cases hx : cert = NULL
        · rw [if_pos hx] at hcert ⊢; exact hcert
        · rw [if_neg hx] at hcert ⊢
          obtain ⟨a, rfl, ha, hoa⟩ := hcert
          show h4.objs a = _
          rw [hframe a (by omega), hfB a ha, hoa]
      · by_cases hx : pkey = NULL
        · rw [if_pos hx] at hkey ⊢; exact hkey
        · rw [if_neg hx] at hkey ⊢
          obtain ⟨a, rfl, ha, hoa⟩ := hkey
          show h4.objs a = _
          rw [hframe a ha, hoa]
      · rw [if_neg hca]
        refine ⟨items, hobj, hrel.imp ?_⟩
        rintro p c ⟨a, rfl, _, _, hoa⟩
        exact hoa
      · intro a ha
        rw [hframe a (by omega), hold a ha]

/-- With memory for the object, two wrappers, the tuple and one wrapper per CA
certificate, lines 303-346 succeed. -/
theorem New_build_total (h : Heap) (pkey cert : Handle) (ca : List Handle)
    (hmem : 4 + ca.length ≤ h.avail) :
    ∃ h1 self, New_build h pkey cert (some ca) = (h1, .ok self) := by
  simp only [New_build, alloc_of_avail h .PKCS12Obj (by omega : 0 < h.avail), crypto_X509_New,
    crypto_PKey_New]
  rw [if_neg (by simp)]
  rcases wrap_step_spec ⟨Function.update h.objs h.next (some .PKCS12Obj), h.next + 1, h.avail - 1⟩
      cert (fun c => .X509Obj none c) with ⟨_, h0, _⟩ | ⟨hA, pc, hrc, hpc, _, haA, _, _⟩
  · simp only at h0
    omega
  rw [hrc]
  simp only at haA ⊢
  rw [if_neg hpc]
  rcases wrap_step_spec hA pkey (fun k => .PKeyObj none k) with
    ⟨_, h0, _⟩ | ⟨hB, pk, hrk, hpk, _, haB, _, _⟩
  · omega
  rw [hrk]
  simp only
  rw [if_neg hpk]
  by_cases hca : ca = []
  · subst hca
    rw [if_neg (by simp [sk_X509_num])]
    exact ⟨_, _, rfl⟩
  · have hpos : 0 < ca.length := List.length_pos.mpr hca
    rw [if_pos (by simp [sk_X509_num]; omega)]
    have hcount : (sk_X509_num (some ca)).toNat = ca.length := by simp [sk_X509_num]
    rw [hcount]
    simp only [PyTuple_New, alloc_of_avail hB _ (by omega : 0 < hB.avail)]
    rw [if_neg (by simp)]
    obtain ⟨h4, hloop⟩ := New_loop_total (some ca) (.obj hB.next) ca.length 0
      ⟨Function.update hB.objs hB.next (some (.tuple (List.replicate ca.length .NULL))),
        hB.next + 1, hB.avail - 1⟩ (show ca.length ≤ hB.avail - 1 by omega)
    rw [hloop]
    exact ⟨_, _, rfl⟩

theorem New_of_parse {P12 : Type} (b : Backend P12) (h : Heap) (a : P12) (pw : Option String)
    (pkey cert : Handle) (ca : List Handle)
    (hparse : b.PKCS12_parse a pw = some (pkey, cert, ca)) :
    crypto_PKCS12_New b h (some a) pw =
      ⟨(New_build h pkey cert (some ca)).1, (New_build h pkey cert (some ca)).2, [.parse a pw]⟩ := by
  simp only [crypto_PKCS12_New, sk_X509_new_null, hparse]

theorem forall₂_getD {α β : Type} (R : α → β → Prop) (d : α) (e : β) :
    ∀ (l : List α) (m : List β), List.Forall₂ R l m →
      l.length = m.length ∧ ∀ i, i < m.length → R (l.getD i d) (m.getD i e) := by
  intro l m hrel
  induction hrel with
  | nil => exact ⟨rfl, fun i hi => absurd hi (Nat.not_lt_zero _)⟩
  | cons hab _ ih =>
    refine ⟨by simp [ih.1], ?_⟩
    intro i hi
    cases i with
    | zero => simpa using hab
    | succ j =>
      have := ih.2 j (by simpa using hi)
      simpa using this

/-! ## C4: the CA field built by the constructor -/

/-- C4 as stated fails: extraction from the archive `[48, 201, 101]` succeeds
with zero CA certificates, and the constructor returns an object whose CA
field is `None`, which is not a sequence. -/
theorem New_zero_ca_certificates_gives_None :
    exBackend.PKCS12_parse [48, 201, 101] none = some (201, 101, []) ∧
    (crypto_PKCS12_New exBackend exHeap (some [48, 201, 101]) none).ret
      = .ok ⟨.obj 31, .obj 32, .Py_None⟩ ∧
    deref (crypto_PKCS12_New exBackend exHeap (some [48, 201, 101]) none).heap .Py_None
      = some .None := by
  decide

/-- C4 amended. When extraction from a non-null archive succeeds and memory
suffices, the constructor returns an object whose CA field is `None` if the
backend returned zero CA certificates, and otherwise a tuple of the same
length as the backend's list whose `i`-th item is a new Certificate wrapper
of the `i`-th certificate of that list. -/
theorem New_ca_certificates_field {P12 : Type} (b : Backend P12) (h : Heap) (a : P12)
    (pw : Option String) (pkey cert : Handle) (ca : List Handle)
    (hparse : b.PKCS12_parse a pw = some (pkey, cert, ca))
    (hmem : 4 + ca.length ≤ h.avail) :
    ∃ self, (crypto_PKCS12_New b h (some a) pw).ret = .ok self ∧
      (ca = [] → self.cacerts = .Py_None) ∧
      (ca ≠ [] → ∃ items,
        deref (crypto_PKCS12_New b h (some a) pw).heap self.cacerts = some (.tuple items) ∧
        items.length = ca.length ∧
        ∀ i, i < ca.length →
          deref (crypto_PKCS12_New b h (some a) pw).heap (items.getD i .NULL)
            = some (.X509Obj none (ca.getD i NULL))) := by
  obtain ⟨h1, self, hrun⟩ := New_build_total h pkey cert ca hmem
  obtain ⟨_, _, hcaf, _⟩ := New_build_spec h pkey cert ca h1 self hrun
  rw [New_of_parse b h a pw pkey cert ca hparse, hrun]
  refine ⟨self, rfl, ?_, ?_⟩
  · intro hca
    rwa [if_pos hca] at hcaf
  · intro hca
    rw [if_neg hca] at hcaf
    obtain ⟨items, hobj, hrel⟩ := hcaf
    obtain ⟨hlen, hget⟩ := forall₂_getD _ .NULL NULL items ca hrel
    exact ⟨items, hobj, hlen, hget⟩

/-- C4 amended, at an archive with two CA certificates: the CA field is a
tuple of two new wrappers, of certificates 102 and 103 in that order. -/
theorem New_ca_certificates_field_witness :
    ∃ self items,
      (crypto_PKCS12_New exBackend exHeap (some [48, 201, 101, 102, 103]) none).ret
        = .ok self ∧
      deref (crypto_PKCS12_New exBackend exHeap (some [48, 201, 101, 102, 103]) none).heap
        self.cacerts = some (.tuple items) ∧
      items.length = 2 ∧
      deref (crypto_PKCS12_New exBackend exHeap (some [48, 201, 101, 102, 103]) none).heap
        (items.getD 0 .NULL) = some (.X509Obj none 102) ∧
      deref (crypto_PKCS12_New exBackend exHeap (some [48, 201, 101, 102, 103]) none).heap
        (items.getD 1 .NULL) = some (.X509Obj none 103) := by
  obtain ⟨self, hret, _, hca⟩ :=
    New_ca_certificates_field exBackend exHeap [48, 201, 101, 102, 103] none 201 101 [102, 103]
      rfl (by decide)
  obtain ⟨items, hobj, hlen, hget⟩ := hca (by decide)
  exact ⟨self, items, hret, hobj, hlen, hget 0 (by decide), hget 1 (by decide)⟩

/-! ## C5: extraction failure and the null archive -/

/-- C5. For a non-null archive whose extraction fails, the constructor raises
`crypto.Error`, returns no object and leaves the heap as it was. For the null
archive it makes no backend call and, given memory for the object itself,
returns an object whose certificate, key and CA fields are all `None`. -/
theorem New_extraction_failure_and_null_archive {P12 : Type} (b : Backend P12) (h : Heap)
    (pw : Option String) :
    (∀ a, b.PKCS12_parse a pw = none →
      crypto_PKCS12_New b h (some a) pw = ⟨h, .raised .crypto_Error, [.parse a pw]⟩) ∧
    (crypto_PKCS12_New b h none pw).calls = [] ∧
    (0 < h.avail →
      (crypto_PKCS12_New b h none pw).ret = .ok ⟨.Py_None, .Py_None, .Py_None⟩) := by
  refine ⟨?_, rfl, ?_⟩
  · intro a hfail
    simp only [crypto_PKCS12_New, sk_X509_new_null, hfail]
  · intro hav
    simp [crypto_PKCS12_New, New_build, sk_X509_new_null, sk_X509_num,
      alloc_of_avail h .PKCS12Obj hav]

/-- C5 at the malformed archive `[48]` and at the null archive. -/
theorem New_extraction_failure_and_null_archive_witness :
    crypto_PKCS12_New exBackend exHeap (some [48]) (some "wrong")
      = ⟨exHeap, .raised .crypto_Error, [.parse [48] (some "wrong")]⟩ ∧
    (crypto_PKCS12_New exBackend exHeap none (some "wrong")).ret
      = .ok ⟨.Py_None, .Py_None, .Py_None⟩ :=
  ⟨(New_extraction_failure_and_null_archive exBackend exHeap (some "wrong")).1 [48] rfl,
   (New_extraction_failure_and_null_archive exBackend exHeap (some "wrong")).2.2 (by decide)⟩

/-! ## Export: lemmas -/

theorem IsSeq_unique (h : Heap) (p : PyPtr) (l m : List PyPtr)
    (hl : IsSeq h p l) (hm : IsSeq h p m) : l = m := by
  unfold IsSeq at hl hm
  rcases hl with hl | hl <;> rcases hm with hm | hm <;> rw [hl] at hm <;> simp at hm <;> exact hm

theorem not_IsSeq_of_Absent (h : Heap) (p : PyPtr) (l : List PyPtr) (ha : Absent p) :
    ¬ IsSeq h p l := by
  rcases ha with rfl | rfl <;> simp [IsSeq, deref]

/-- The loop of `export` over a sequence of Certificate wrappers pushes their
native handles in order. -/
theorem export_loop_spec (h : Heap) (seq : PyPtr) (items : List PyPtr)
    (hseq : IsSeq h seq items) (hall : ∀ p ∈ items, ∃ c, IsCert h p c) :
    ∀ (n i : Nat) (st : STACK_OF_X509), i + n = items.length →
      ∃ new, export_loop h seq n i (some st) = some (some (st ++ new)) ∧
        List.Forall₂ (IsCert h) (items.drop i) new := by
  obtain ⟨_, _, hget⟩ := sequence_api h seq items hseq
  intro n
  induction n with
  | zero =>
    intro i st hi
    refine ⟨[], by simp [export_loop], ?_⟩
    rw [List.drop_eq_nil_of_le (by omega)]
    exact List.Forall₂.nil
  | succ n ih =>
    intro i st hi
    have hlt : i < items.length := by omega
    obtain ⟨c, s, hc⟩ := hall items[i] (List.getElem_mem hlt)
    obtain ⟨new, hrun, hrel⟩ := ih (i + 1) (st ++ [c]) (by omega)
    refine ⟨c :: new, ?_, ?_⟩
    · simp only [export_loop, hget i, List.getD_eq_getElem _ _ hlt, X509Obj_x509, hc,
        sk_X509_push, Option.map_some', hrun]
      simp
    · rw [List.drop_eq_getElem_cons hlt]
      exact List.Forall₂.cons ⟨s, hc⟩ hrel

theorem export_reads_key (h : Heap) (p : PyPtr) (hp : Absent p ∨ ∃ k, IsPKey h p k) :
    ∃ v, (if p ≠ .NULL ∧ p ≠ .Py_None then PKeyObj_pkey h p else some NULL) = some v ∧
      (Absent p → v = NULL) ∧ ∀ k, IsPKey h p k → v = k := by
  rcases hp with ha | ⟨k0, s0, hk0⟩
  · refine ⟨NULL, ?_, fun _ => rfl, ?_⟩
    · rcases ha with rfl | rfl <;> simp
    · rintro k ⟨s, hk⟩
      rcases ha with rfl | rfl <;> simp [deref] at hk
  · have hn1 : p ≠ .NULL := by rintro rfl; simp [deref] at hk0
    have hn2 : p ≠ .Py_None := by rintro rfl; simp [deref] at hk0
    refine ⟨k0, ?_, ?_, ?_⟩
    · rw [if_pos ⟨hn1, hn2⟩]
      simp [PKeyObj_pkey, hk0]
    · rintro (rfl | rfl)
      · exact absurd rfl hn1
      · exact absurd rfl hn2
    · rintro k ⟨s, hk⟩
      rw [hk0] at hk
      simp only [Option.some.injEq, PyObject.PKeyObj.injEq] at hk
      exact hk.2

theorem export_reads_cert (h : Heap) (p : PyPtr) (hp : Absent p ∨ ∃ c, IsCert h p c) :
    ∃ v, (if p ≠ .NULL ∧ p ≠ .Py_None then X509Obj_x509 h p else some NULL) = some v ∧
      (Absent p → v = NULL) ∧ ∀ c, IsCert h p c → v = c := by
  rcases hp with ha | ⟨c0, s0, hc0⟩
  · refine ⟨NULL, ?_, fun _ => rfl, ?_⟩
    · rcases ha with rfl | rfl <;> simp
    · rintro c ⟨s, hc⟩
      rcases ha with rfl | rfl <;> simp [deref] at hc
  · have hn1 : p ≠ .NULL := by rintro rfl; simp [deref] at hc0
    have hn2 : p ≠ .Py_None := by rintro rfl; simp [deref] at hc0
    refine ⟨c0, ?_, ?_, ?_⟩
    · rw [if_pos ⟨hn1, hn2⟩]
      simp [X509Obj_x509, hc0]
    · rintro (rfl | rfl)
      · exact absurd rfl hn1
      · exact absurd rfl hn2
    · rintro c ⟨s, hc⟩
      rw [hc0] at hc
      simp only [Option.some.injEq, PyObject.X509Obj.injEq] at hc
      exact hc.2

/-- The arguments `export` hands to `PKCS12_create`, for an object whose
stored pointers are valid. -/
theorem export_create_args_spec (h : Heap) (self : crypto_PKCS12Obj) (a : ExportArgs)
    (hv : ValidBundle h self) :
    ∃ pkey x509 stack,
      export_create_args h self a = some ⟨a.passphrase, a.friendly_name, pkey, x509, some stack,
        NID_pbe_WithSHA1And3_Key_TripleDES_CBC, NID_pbe_WithSHA1And3_Key_TripleDES_CBC,
        a.iter.getD PKCS12_DEFAULT_ITER, a.maciter.getD 0, 0⟩ ∧
      (Absent self.key → pkey = NULL) ∧ (∀ k, IsPKey h self.key k → pkey = k) ∧
      (Absent self.cert → x509 = NULL) ∧ (∀ c, IsCert h self.cert c → x509 = c) ∧
      (Absent self.cacerts → stack = []) ∧
      (∀ items, IsSeq h self.cacerts items → List.Forall₂ (IsCert h) items stack) := by
  obtain ⟨hkey, hcert, hca⟩ := hv
  obtain ⟨pkey, hrk, hk1, hk2⟩ := export_reads_key h self.key hkey
  obtain ⟨x509, hrc, hc1, hc2⟩ := export_reads_cert h self.cert hcert
  have hstack : ∃ stack,
      (if self.cacerts ≠ .NULL ∧ self.cacerts ≠ .Py_None then
        export_loop h self.cacerts (PySequence_Length h self.cacerts).toNat 0 sk_X509_new_null
       else some sk_X509_new_null) = some (some stack) ∧
      (Absent self.cacerts → stack = []) ∧
      (∀ items, IsSeq h self.cacerts items → List.Forall₂ (IsCert h) items stack) := by
    rcases hca with ha | ⟨items, hseq, hall⟩
    · refine ⟨[], ?_, fun _ => rfl, fun items hs => absurd hs (not_IsSeq_of_Absent h _ _ ha)⟩
      rcases ha with e | e <;> simp [e, sk_X509_new_null]
    · have hn1 : self.cacerts ≠ .NULL := by
        intro e; exact not_IsSeq_of_Absent h _ _ (Or.inl e) hseq
      have hn2 : self.cacerts ≠ .Py_None := by
        intro e; exact not_IsSeq_of_Absent h _ _ (Or.inr e) hseq
      obtain ⟨_, hlen, _⟩ := sequence_api h self.cacerts items hseq
      obtain ⟨new, hrun, hrel⟩ :=
        export_loop_spec h self.cacerts items hseq hall items.length 0 [] (by omega)
      refine ⟨new, ?_, ?_, ?_⟩
      · rw [if_pos ⟨hn1, hn2⟩, hlen]
        simpa [sk_X509_new_null] using hrun
      · rintro (e | e)
        · exact absurd e hn1
        · exact absurd e hn2
      · intro items2 hs2
        rw [← IsSeq_unique h _ _ _ hseq hs2]
        simpa using hrel
  obtain ⟨stack, hrs, hs1, hs2⟩ := hstack
  refine ⟨pkey, x509, stack, ?_, hk1, hk2, hc1, hc2, hs1, hs2⟩
  simp only [export_create_args, hrk, hrc, hrs, Option.bind_eq_bind, Option.some_bind]

theorem export_of_create_fail {P12 : Type} (b : Backend P12) (h : Heap)
    (self : crypto_PKCS12Obj) (a : ExportArgs) (args : CreateArgs)
    (hargs : export_create_args h self a = some args) (hcr : b.PKCS12_create args = none) :
    crypto_PKCS12_export b h self (some a) = some ⟨.raised .crypto_Error, [.create args]⟩ := by
  simp only [crypto_PKCS12_export, hargs, hcr]

theorem export_of_create_ok {P12 : Type} (b : Backend P12) (h : Heap)
    (self : crypto_PKCS12Obj) (a : ExportArgs) (args : CreateArgs) (p12 : P12)
    (hargs : export_create_args h self a = some args) (hcr : b.PKCS12_create args = some p12) :
    crypto_PKCS12_export b h self (some a) =
      some ⟨if h.avail = 0 then .raised .MemoryError else .ok (b.i2d_PKCS12 p12),
        [.create args, .encode p12]⟩ := by
  simp only [crypto_PKCS12_export, hargs, hcr, PyString_FromStringAndSize]
  by_cases hav : h.avail = 0
  · simp [hav]
  · simp [hav]

theorem exFull_valid : ValidBundle exHeap exFull := by
  refine ⟨Or.inr ⟨201, none, rfl⟩, Or.inr ⟨101, none, rfl⟩,
    Or.inr ⟨[.obj 10, .obj 11], Or.inl rfl, ?_⟩⟩
  intro p hp
  simp only [List.mem_cons, List.mem_singleton, List.not_mem_nil, or_false] at hp
  rcases hp with rfl | rfl
  · exact ⟨101, none, rfl⟩
  · exact ⟨102, none, rfl⟩

/-! ## C7: the native handles passed to the creation routine -/

/-- C7. For every object whose key and certificate are absent or wrappers of
non-null native handles and whose CA field is absent or a sequence of
Certificate wrappers, `export` calls `PKCS12_create` first, with: the null key
handle exactly when the key is absent, else the stored key's handle; the null
certificate handle exactly when the certificate is absent, else the stored
certificate's handle; a non-null CA stack, empty when the CA field is absent,
else of the length of the stored sequence with the handle of the `i`-th
stored certificate at position `i`. -/
theorem export_native_handles {P12 : Type} (b : Backend P12) (h : Heap)
    (self : crypto_PKCS12Obj) (a : ExportArgs) (hv : ValidBundle h self)
    (hk : ∀ k, IsPKey h self.key k → k ≠ NULL) (hc : ∀ c, IsCert h self.cert c → c ≠ NULL) :
    ∃ args out, crypto_PKCS12_export b h self (some a) = some out ∧
      out.calls.head? = some (.create args) ∧
      (args.pkey = NULL ↔ Absent self.key) ∧ (∀ k, IsPKey h self.key k → args.pkey = k) ∧
      (args.cert = NULL ↔ Absent self.cert) ∧ (∀ c, IsCert h self.cert c → args.cert = c) ∧
      ∃ stack, args.ca = some stack ∧ (Absent self.cacerts → stack = []) ∧
        ∀ items, IsSeq h self.cacerts items →
          stack.length = items.length ∧
          ∀ i, i < items.length → IsCert h (items.getD i .NULL) (stack.getD i NULL) := by
  obtain ⟨pkey, x509, stack, hargs, hk1, hk2, hc1, hc2, hs1, hs2⟩ :=
    export_create_args_spec h self a hv
  have hout : ∃ out, crypto_PKCS12_export b h self (some a) = some out ∧
      out.calls.head? = some (.create ⟨a.passphrase, a.friendly_name, pkey, x509, some stack,
        NID_pbe_WithSHA1And3_Key_TripleDES_CBC, NID_pbe_WithSHA1And3_Key_TripleDES_CBC,
        a.iter.getD PKCS12_DEFAULT_ITER, a.maciter.getD 0, 0⟩) := by
    cases hcr : b.PKCS12_create ⟨a.passphrase, a.friendly_name, pkey, x509, some stack,
        NID_pbe_WithSHA1And3_Key_TripleDES_CBC, NID_pbe_WithSHA1And3_Key_TripleDES_CBC,
        a.iter.getD PKCS12_DEFAULT_ITER, a.maciter.getD 0, 0⟩ with
    | none => exact ⟨_, export_of_create_fail b h self a _ hargs hcr, rfl⟩
    | some p12 => exact ⟨_, export_of_create_ok b h self a _ p12 hargs hcr, rfl⟩
  obtain ⟨out, hout1, hout2⟩ := hout
  refine ⟨_, out, hout1, hout2, ⟨?_, hk1⟩, hk2, ⟨?_, hc1⟩, hc2, stack, rfl, hs1, ?_⟩
  · intro hnull
    rcases hv.1 with ha | ⟨k, hkk⟩
    · exact ha
    · exact absurd ((hk2 k hkk).symm.trans hnull) (hk k hkk)
  · intro hnull
    rcases hv.2.1 with ha | ⟨c, hcc⟩
    · exact ha
    · exact absurd ((hc2 c hcc).symm.trans hnull) (hc c hcc)
  · intro items hseq
    obtain ⟨hlen, hget⟩ := forall₂_getD _ .NULL NULL items stack (hs2 items hseq)
    exact ⟨hlen.symm, fun i hi => hget i (by omega)⟩

/-- C7 at an object holding certificate 10 (handle 101), key 12 (handle 201)
and the CA tuple 20 of certificates 10 and 11. -/
theorem export_native_handles_witness :
    ∃ args out, crypto_PKCS12_export exBackend exHeap exFull (some ⟨none, none, none, none⟩)
        = some out ∧
      out.calls.head? = some (.create args) ∧ args.pkey = 201 ∧ args.cert = 101 ∧
      ∃ stack, args.ca = some stack ∧ stack.length = 2 ∧
        IsCert exHeap (.obj 10) (stack.getD 0 NULL) ∧
        IsCert exHeap (.obj 11) (stack.getD 1 NULL) := by
  obtain ⟨args, out, hout, hcall, _, hk, _, hc, stack, hs, _, hitems⟩ :=
    export_native_handles exBackend exHeap exFull ⟨none, none, none, none⟩ exFull_valid
      (by rintro k ⟨s, hk⟩; simp [exFull, exHeap, deref] at hk; rw [← hk.2]; decide)
      (by rintro c ⟨s, hc⟩; simp [exFull, exHeap, deref] at hc; rw [← hc.2]; decide)
  obtain ⟨hlen, hget⟩ := hitems [.obj 10, .obj 11] (Or.inl rfl)
  exact ⟨args, out, hout, hcall, hk 201 ⟨none, rfl⟩, hc 101 ⟨none, rfl⟩, stack, hs, hlen,
    hget 0 (by decide), hget 1 (by decide)⟩

/-! ## C8: delegation to the creation routine -/

/-- C8. For every valid object and all parsed arguments, `export` calls
`PKCS12_create` with the caller's passphrase and friendly name, the
triple-DES/SHA-1 identifier in both algorithm slots, the caller's `iter`
(default `PKCS12_DEFAULT_ITER`) and `maciter` (default 0); if creation fails
it raises `crypto.Error` and returns no bytes; if creation succeeds it returns
exactly the backend's encoding of the created archive (given memory for the
result string). -/
theorem export_delegates_to_create {P12 : Type} (b : Backend P12) (h : Heap)
    (self : crypto_PKCS12Obj) (a : ExportArgs) (hv : ValidBundle h self) :
    ∃ args, export_create_args h self a = some args ∧
      args.pass = a.passphrase ∧ args.name = a.friendly_name ∧
      args.nid_key = NID_pbe_WithSHA1And3_Key_TripleDES_CBC ∧
      args.nid_cert = NID_pbe_WithSHA1And3_Key_TripleDES_CBC ∧
      args.iter = a.iter.getD PKCS12_DEFAULT_ITER ∧ args.mac_iter = a.maciter.getD 0 ∧
      (b.PKCS12_create args = none →
        crypto_PKCS12_export b h self (some a)
          = some ⟨.raised .crypto_Error, [.create args]⟩) ∧
      (∀ p12, b.PKCS12_create args = some p12 → 0 < h.avail →
        crypto_PKCS12_export b h self (some a)
          = some ⟨.ok (b.i2d_PKCS12 p12), [.create args, .encode p12]⟩) := by
  obtain ⟨pkey, x509, stack, hargs, _⟩ := export_create_args_spec h self a hv
  refine ⟨_, hargs, rfl, rfl, rfl, rfl, rfl, rfl, ?_, ?_⟩
  · intro hcr
    exact export_of_create_fail b h self a _ hargs hcr
  · intro p12 hcr hav
    rw [export_of_create_ok b h self a _ p12 hargs hcr, if_neg (by omega)]

/-- C8 at the full example object with passphrase "secret" and `maciter = -1`:
with the example backend the encoding of the created archive is returned,
with the failing backend `crypto.Error` is raised. -/
theorem export_delegates_to_create_witness :
    crypto_PKCS12_export exBackend exHeap exFull (some ⟨some "secret", none, none, some (-1)⟩)
      = some ⟨.ok [48, 201, 101, 101, 102],
          [.create ⟨some "secret", none, 201, 101, some [101, 102], 146, 146, 2048, -1, 0⟩,
           .encode [48, 201, 101, 101, 102]]⟩ ∧
    crypto_PKCS12_export exFailing exHeap exFull (some ⟨some "secret", none, none, some (-1)⟩)
      = some ⟨.raised .crypto_Error,
          [.create ⟨some "secret", none, 201, 101, some [101, 102], 146, 146, 2048, -1, 0⟩]⟩ := by
  have hval : export_create_args exHeap exFull ⟨some "secret", none, none, some (-1)⟩
      = some ⟨some "secret", none, 201, 101, some [101, 102], 146, 146, 2048, -1, 0⟩ := rfl
  obtain ⟨args, hargs, _, _, _, _, _, _, _, hok⟩ :=
    export_delegates_to_create exBackend exHeap exFull ⟨some "secret", none, none, some (-1)⟩
      exFull_valid
  obtain ⟨args2, hargs2, _, _, _, _, _, _, hfail, _⟩ :=
    export_delegates_to_create exFailing exHeap exFull ⟨some "secret", none, none, some (-1)⟩
      exFull_valid
  have e1 : args = ⟨some "secret", none, 201, 101, some [101, 102], 146, 146, 2048, -1, 0⟩ :=
    Option.some.inj (hargs.symm.trans hval)
  have e2 : args2 = ⟨some "secret", none, 201, 101, some [101, 102], 146, 146, 2048, -1, 0⟩ :=
    Option.some.inj (hargs2.symm.trans hval)
  subst e1 e2
  exact ⟨hok _ rfl (by decide), hfail rfl⟩

/-! ## C6: what `set_ca_certificates` accepts and stores -/

/-- C6 evaluated on the code. Object 23 is an iterable (a generator) yielding
two certificates, yet `set_ca_certificates` rejects it with `TypeError` and
changes nothing. The list 22 holding one certificate is accepted, and what is
stored, and returned by `get_ca_certificates`, is the caller's list itself:
after the caller replaces its item 0 by the integer 13, the stored sequence
holds that integer, and the read of it as a Certificate wrapper in `export`
has no defined behaviour. -/
theorem set_ca_certificates_rejects_generator_and_aliases_list :
    (deref exHeap (.obj 23) = some (.generator [.obj 10, .obj 11]) ∧
      PyObject_Type exHeap (.obj 10) = some .crypto_X509_Type ∧
      PyObject_Type exHeap (.obj 11) = some .crypto_X509_Type ∧
      crypto_PKCS12_set_ca_certificates exHeap exEmpty (some (.obj 23))
        = ⟨exEmpty, .raised .TypeError⟩) ∧
    (deref exHeap (.obj 22) = some (.list [.obj 10]) ∧
      crypto_PKCS12_set_ca_certificates exHeap exEmpty (some (.obj 22))
        = ⟨⟨.Py_None, .Py_None, .obj 22⟩, .ok ()⟩ ∧
      (crypto_PKCS12_get_ca_certificates ⟨.Py_None, .Py_None, .obj 22⟩ true).ret
        = .ok (.obj 22) ∧
      deref (PyList_SetItem exHeap (.obj 22) 0 (.obj 13)) (.obj 22) = some (.list [.obj 13]) ∧
      export_create_args (PyList_SetItem exHeap (.obj 22) 0 (.obj 13))
        ⟨.Py_None, .Py_None, .obj 22⟩ ⟨none, none, none, none⟩ = none) := by
  decide

/-! ## C10: the invariant of the CA field -/

/-- C10 evaluated on the code. The constructor builds an object from an
archive with two CA certificates; `set_ca_certificates` then accepts the
caller's list 22, which holds one certificate, and stores that list itself,
as `get_ca_certificates` shows. When the caller replaces item 0 of its list
by the integer 13, the CA field of the object is a sequence holding an item
that is not of the certificate type, so the invariant is lost, and the read
of that item as a Certificate wrapper in `export` (line 229) has no defined
behaviour. -/
theorem ca_certificates_invariant_lost_through_stored_list :
    (crypto_PKCS12_New exBackend exHeap (some [48, 201, 101, 102, 103]) none).ret
      = .ok ⟨.obj 31, .obj 32, .obj 33⟩ ∧
    crypto_PKCS12_set_ca_certificates
        (crypto_PKCS12_New exBackend exHeap (some [48, 201, 101, 102, 103]) none).heap
        ⟨.obj 31, .obj 32, .obj 33⟩ (some (.obj 22))
      = ⟨⟨.obj 31, .obj 32, .obj 22⟩, .ok ()⟩ ∧
    (crypto_PKCS12_get_ca_certificates ⟨.obj 31, .obj 32, .obj 22⟩ true).ret
      = .ok (.obj 22) ∧
    ¬ CaInv
        (PyList_SetItem
          (crypto_PKCS12_New exBackend exHeap (some [48, 201, 101, 102, 103]) none).heap
          (.obj 22) 0 (.obj 13))
        ⟨.obj 31, .obj 32, .obj 22⟩ ∧
    (crypto_PKCS12_export exBackend
        (PyList_SetItem
          (crypto_PKCS12_New exBackend exHeap (some [48, 201, 101, 102, 103]) none).heap
          (.obj 22) 0 (.obj 13))
        ⟨.obj 31, .obj 32, .obj 22⟩ (some ⟨none, none, none, none⟩)).isNone = true := by
  refine ⟨by decide, by decide, by decide, ?_, by decide⟩
  rintro (hnone | ⟨items, hseq, hall⟩)
  · exact absurd hnone (by decide)
  · have hlist : IsSeq
        (PyList_SetItem
          (crypto_PKCS12_New exBackend exHeap (some [48, 201, 101, 102, 103]) none).heap
          (.obj 22) 0 (.obj 13))
        (.obj 22) [.obj 13] := Or.inr (by decide)
    have hitems : items = [.obj 13] := IsSeq_unique _ _ _ _ hseq hlist
    subst hitems
    exact absurd (hall (.obj 13) (List.mem_singleton.mpr rfl)) (by decide)

/-! ## C9: export followed by construction -/

theorem exBackend_Inverts (p : Option String) : Inverts exBackend p := by
  intro args p12 _ hcr
  simp only [exBackend, Option.some.injEq] at hcr
  subst hcr
  refine ⟨_, args.pkey, args.cert, args.ca.getD [], rfl, rfl, ⟨Iff.rfl, rfl⟩, ⟨Iff.rfl, rfl⟩, ?_⟩
  exact List.forall₂_same.mpr fun _ _ => ⟨Iff.rfl, rfl⟩

theorem exEmptyCa_valid : ValidTriple exHeap exEmptyCa [] :=
  ⟨Or.inr ⟨101, ⟨none, rfl⟩, by decide⟩, Or.inr ⟨201, ⟨none, rfl⟩, by decide⟩,
    Or.inr (Or.inl rfl), fun _ hx => absurd hx (List.not_mem_nil _)⟩

/-- C9 as stated fails at an empty CA list. The example backend satisfies the
inversion assumption and `exEmptyCa` holds a valid triple whose CA list is the
empty tuple; exporting it with passphrase "secret" and constructing from the
decoded bytes with the same passphrase gives an object whose CA field is
`None`, which is not equivalent to the empty tuple. -/
theorem roundtrip_empty_ca_list_comes_back_absent :
    Inverts exBackend (some "secret") ∧ ValidTriple exHeap exEmptyCa [] ∧
    (crypto_PKCS12_export exBackend exHeap exEmptyCa
        (some ⟨some "secret", none, none, none⟩)).map (fun o => o.ret)
      = some (.ok [48, 201, 101]) ∧
    exBackend.d2i_PKCS12 [48, 201, 101] = some [48, 201, 101] ∧
    (crypto_PKCS12_New exBackend exHeap (some [48, 201, 101]) (some "secret")).ret
      = .ok ⟨.obj 31, .obj 32, .Py_None⟩ ∧
    ¬ CaListEquiv exBackend exHeap exEmptyCa.cacerts
        (crypto_PKCS12_New exBackend exHeap (some [48, 201, 101]) (some "secret")).heap
        .Py_None := by
  refine ⟨exBackend_Inverts _, exEmptyCa_valid, by decide, rfl, by decide, ?_⟩
  rintro (⟨h1, _⟩ | ⟨l1, l2, _, h2, _⟩)
  · exact absurd h1 (by decide)
  · exact not_IsSeq_of_Absent _ _ _ (Or.inr rfl) h2

theorem forall₂_chain {α β γ δ : Type} (R : α → β → Prop) (S : γ → β → Prop)
    (T : δ → γ → Prop) (Q : α → δ → Prop)
    (hq : ∀ a b c d, R a b → S c b → T d c → Q a d) :
    ∀ (l1 : List α) (l2 : List β) (l3 : List γ) (l4 : List δ),
      List.Forall₂ R l1 l2 → List.Forall₂ S l3 l2 → List.Forall₂ T l4 l3 →
      List.Forall₂ Q l1 l4 := by
  intro l1 l2 l3 l4 h12
  induction h12 generalizing l3 l4 with
  | nil =>
    intro h32 h43
    cases h32
    cases h43
    exact List.Forall₂.nil
  | cons hr _ ih =>
    intro h32 h43
    cases h32 with
    | cons hs h32t =>
      cases h43 with
      | cons ht h43t => exact List.Forall₂.cons (hq _ _ _ _ hr hs ht) (ih _ _ h32t h43t)

/-- C9 amended. Assume the backend inverts with passphrase `p`. Let the object
hold a valid triple with CA items `items`, let `export` with passphrase `p`
return `bytes`, and let memory suffice for the construction. Then `bytes`
decode to an archive from which the constructor, with passphrase `p`, returns
an object whose certificate and key are equivalent to the original ones; whose
CA field, when `items` is non-empty, is a tuple of certificates equivalent to
`items` in order; and whose CA field is `None` when `items` is empty, be the
original CA field an empty sequence or absent. -/
theorem export_then_New_roundtrip {P12 : Type} (b : Backend P12) (p : Option String)
    (h : Heap) (self : crypto_PKCS12Obj) (items : List PyPtr) (a : ExportArgs)
    (bytes : List Nat) (h2 : Heap)
    (hinv : Inverts b p) (hpass : a.passphrase = p) (hv : ValidTriple h self items)
    (hexp : (crypto_PKCS12_export b h self (some a)).map (fun o => o.ret) = some (.ok bytes))
    (hmem : 4 + items.length ≤ h2.avail) :
    ∃ q self2, b.d2i_PKCS12 bytes = some q ∧
      (crypto_PKCS12_New b h2 (some q) p).ret = .ok self2 ∧
      CertEquiv b h self.cert (crypto_PKCS12_New b h2 (some q) p).heap self2.cert ∧
      KeyEquiv b h self.key (crypto_PKCS12_New b h2 (some q) p).heap self2.key ∧
      (items = [] → self2.cacerts = .Py_None) ∧
      (items ≠ [] → ∃ items2,
        deref (crypto_PKCS12_New b h2 (some q) p).heap self2.cacerts = some (.tuple items2) ∧
        List.Forall₂
          (fun x y => CertEquiv b h x (crypto_PKCS12_New b h2 (some q) p).heap y)
          items items2) := by
  obtain ⟨hvc, hvk, hvs, hvi⟩ := hv
  have hvalid : ValidBundle h self := by
    refine ⟨?_, ?_, ?_⟩
    · rcases hvk with e | ⟨k, hk, _⟩
      · exact Or.inl (Or.inr e)
      · exact Or.inr ⟨k, hk⟩
    · rcases hvc with e | ⟨c, hc, _⟩
      · exact Or.inl (Or.inr e)
      · exact Or.inr ⟨c, hc⟩
    · rcases hvs with ⟨e, _⟩ | hs
      · exact Or.inl (Or.inr e)
      · exact Or.inr ⟨items, hs, hvi⟩
  obtain ⟨pkey, x509, stack, hargs, hk1, hk2, hc1, hc2, hs1, hs2⟩ :=
    export_create_args_spec h self a hvalid
  -- the stack passed to the backend mirrors `items`
  have hstack : List.Forall₂ (IsCert h) items stack := by
    rcases hvs with ⟨e, hnil⟩ | hs
    · rw [hnil, hs1 (Or.inr e)]
      exact List.Forall₂.nil
    · exact hs2 items hs
  -- the export succeeded, so creation succeeded and `bytes` is its encoding
  obtain ⟨p12c, hcr, hbytes⟩ : ∃ p12c,
      b.PKCS12_create ⟨a.passphrase, a.friendly_name, pkey, x509, some stack,
        NID_pbe_WithSHA1And3_Key_TripleDES_CBC, NID_pbe_WithSHA1And3_Key_TripleDES_CBC,
        a.iter.getD PKCS12_DEFAULT_ITER, a.maciter.getD 0, 0⟩ = some p12c ∧
      bytes = b.i2d_PKCS12 p12c := by
    cases hcr : b.PKCS12_create ⟨a.passphrase, a.friendly_name, pkey, x509, some stack,
        NID_pbe_WithSHA1And3_Key_TripleDES_CBC, NID_pbe_WithSHA1And3_Key_TripleDES_CBC,
        a.iter.getD PKCS12_DEFAULT_ITER, a.maciter.getD 0, 0⟩ with
    | none =>
      rw [export_of_create_fail b h self a _ hargs hcr] at hexp
      simp at hexp
    | some p12c =>
      rw [export_of_create_ok b h self a _ p12c hargs hcr] at hexp
      refine ⟨p12c, rfl, ?_⟩
      by_cases hav : h.avail = 0
      · simp [hav] at hexp
      · simp only [if_neg hav, Option.map_some', Option.some.injEq, PyRet.ok.injEq] at hexp
        exact hexp.symm
  obtain ⟨q, pkey2, cert2, ca2, hd2i, hparse, hke, hce, hcae⟩ := hinv _ p12c hpass hcr
  simp only [Option.getD_some] at hke hce hcae
  have hlen : ca2.length = items.length := by
    rw [hcae.length_eq, hstack.length_eq]
  obtain ⟨h3, self2, hrun⟩ := New_build_total h2 pkey2 cert2 ca2 (by omega)
  obtain ⟨hcf, hkf, hcaf, _⟩ := New_build_spec h2 pkey2 cert2 ca2 h3 self2 hrun
  refine ⟨q, self2, by rw [hbytes, hd2i], ?_, ?_, ?_, ?_, ?_⟩
  · rw [New_of_parse b h2 q p pkey2 cert2 ca2 hparse, hrun]
  · rw [New_of_parse b h2 q p pkey2 cert2 ca2 hparse, hrun]
    rcases hvc with e | ⟨c, hc, hcn⟩
    · left
      have hx : x509 = NULL := hc1 (Or.inr e)
      have : cert2 = NULL := hce.1.mpr hx
      rw [if_pos this] at hcf
      exact ⟨e, hcf⟩
    · right
      have hx : x509 = c := hc2 c hc
      have hne : cert2 ≠ NULL := fun e => hcn (hx ▸ hce.1.mp e)
      rw [if_neg hne] at hcf
      exact ⟨c, cert2, hc, ⟨none, hcf⟩, by rw [hce.2, hx]⟩
  · rw [New_of_parse b h2 q p pkey2 cert2 ca2 hparse, hrun]
    rcases hvk with e | ⟨k, hk, hkn⟩
    · left
      have hx : pkey = NULL := hk1 (Or.inr e)
      have : pkey2 = NULL := hke.1.mpr hx
      rw [if_pos this] at hkf
      exact ⟨e, hkf⟩
    · right
      have hx : pkey = k := hk2 k hk
      have hne : pkey2 ≠ NULL := fun e => hkn (hx ▸ hke.1.mp e)
      rw [if_neg hne] at hkf
      exact ⟨k, pkey2, hk, ⟨none, hkf⟩, by rw [hke.2, hx]⟩
  · intro hnil
    have : ca2 = [] := List.length_eq_zero.mp (by rw [hlen, hnil]; rfl)
    rwa [if_pos this] at hcaf
  · intro hne
    have : ca2 ≠ [] := by
      intro e
      rw [e] at hlen
      exact hne (List.length_eq_zero.mp hlen.symm)
    rw [if_neg this] at hcaf
    obtain ⟨items2, hobj, hrel⟩ := hcaf
    rw [New_of_parse b h2 q p pkey2 cert2 ca2 hparse, hrun]
    refine ⟨items2, hobj, ?_⟩
    refine forall₂_chain (IsCert h) (HandleEquiv b.i2d_X509)
      (fun y c => deref h3 y = some (.X509Obj none c)) _ ?_ items stack ca2 items2 hstack hcae hrel
    intro x c c2 y hx hcc hy
    exact Or.inr ⟨c, c2, hx, ⟨none, hy⟩, hcc.2.symm⟩

theorem exFull_valid_triple : ValidTriple exHeap exFull [.obj 10, .obj 11] := by
  refine ⟨Or.inr ⟨101, ⟨none, rfl⟩, by decide⟩, Or.inr ⟨201, ⟨none, rfl⟩, by decide⟩,
    Or.inr (Or.inl rfl), ?_⟩
  intro x hx
  simp only [List.mem_cons, List.mem_singleton, List.not_mem_nil, or_false] at hx
  rcases hx with rfl | rfl
  · exact ⟨101, none, rfl⟩
  · exact ⟨102, none, rfl⟩

/-- C9 amended, at the object holding certificate 10, key 12 and the CA tuple
of certificates 10 and 11, exported with passphrase "secret". -/
theorem export_then_New_roundtrip_witness :
    ∃ q self2 items2, exBackend.d2i_PKCS12 [48, 201, 101, 101, 102] = some q ∧
      (crypto_PKCS12_New exBackend exHeap (some q) (some "secret")).ret = .ok self2 ∧
      CertEquiv exBackend exHeap exFull.cert
        (crypto_PKCS12_New exBackend exHeap (some q) (some "secret")).heap self2.cert ∧
      KeyEquiv exBackend exHeap exFull.key
        (crypto_PKCS12_New exBackend exHeap (some q) (some "secret")).heap self2.key ∧
      deref (crypto_PKCS12_New exBackend exHeap (some q) (some "secret")).heap self2.cacerts
        = some (.tuple items2) ∧
      List.Forall₂
        (fun x y => CertEquiv exBackend exHeap x
          (crypto_PKCS12_New exBackend exHeap (some q) (some "secret")).heap y)
        [.obj 10, .obj 11] items2 := by
  obtain ⟨q, self2, hq, hret, hc, hk, _, hca⟩ :=
    export_then_New_roundtrip exBackend (some "secret") exHeap exFull [.obj 10, .obj 11]
      ⟨some "secret", none, none, none⟩ [48, 201, 101, 101, 102] exHeap
      (exBackend_Inverts _) rfl exFull_valid_triple (by decide) (by decide)
  obtain ⟨items2, hobj, hrel⟩ := hca (by decide)
  exact ⟨q, self2, items2, hq, hret, hc, hk, hobj, hrel⟩

end PKCS12
